import Mathlib

/-!
Shallow embedding of the goten-core lifecycle package (Go):
the lifecycle Manager (NewManager / Register / AddHook / Start / Stop /
executeHooks, from the lifecycle manager source file) and the health
aggregator (NewHealthManager / Register / Check, from
src/lifecycle/health.go), together with the part of Go's standard
library that the manager's behavior depends on: `sort.Slice`, which is
implemented as an (unstable) pattern-defeating quicksort
(src/sort/zsortfunc.go, Go 1.19+).

Go functions supplied by callers (hook functions, service Start/Stop,
health checks) are modelled by their observable behavior: an identifying
label where identity matters plus the value they return.  Wall-clock
values (context deadlines, timestamps) are not modelled; no claim here
depends on them.
-/

namespace Goten

/-- Go error values: a plain message (`errors.New`) or a wrapping error
produced by `fmt.Errorf("...: %w", err)`, recorded as the prefix text plus
the wrapped error. -/
inductive GoError : Type where
  | msg (text : String) : GoError
  | wrap (text : String) (inner : GoError) : GoError
  deriving DecidableEq, Repr, Inhabited

/-- lifecycle.State enumeration (Idle, Starting, Running, Stopping, Stopped,
Error), in declaration order. -/
inductive State where
  | idle
  | starting
  | running
  | stopping
  | stopped
  | error
  deriving DecidableEq, Repr, Inhabited

/-- lifecycle.HookPhase enumeration (HookPhaseStartup, HookPhaseShutdown). -/
inductive HookPhase where
  | startup
  | shutdown
  deriving DecidableEq, Repr, Inhabited

/-- A Go hook function value (`func(ctx) error`), modelled by an identifying
label (standing for the closure's identity) and the error the call returns
(`none` = nil). -/
structure HookFn where
  label : String
  result : Option GoError
  deriving DecidableEq, Repr, Inhabited

/-- lifecycle.Hook: Name, Phase, Priority (Go int), Fn. -/
structure Hook where
  name : String
  phase : HookPhase
  priority : Int
  fn : HookFn
  deriving DecidableEq, Repr, Inhabited

/-- A lifecycle.Service implementation, modelled by its observable behavior:
Name(), and the errors Start/Stop return when invoked (`none` = nil). -/
structure Service where
  name : String
  startResult : Option GoError
  stopResult : Option GoError
  deriving DecidableEq, Repr, Inhabited

/-- Go time.Duration (int64 nanoseconds; the values appearing here are far
below the int64 bound, so plain Int is a faithful model). -/
abbrev Duration := Int

/-- time.Second in nanoseconds. -/
def durationSecond : Duration := 1000000000

/-- lifecycle.LifecycleConfig: ShutdownTimeout and GracePeriod durations. -/
structure LifecycleConfig where
  shutdownTimeout : Duration
  gracePeriod : Duration
  deriving DecidableEq, Repr, Inhabited

/-- lifecycle.Manager.  The Go `hooks map[HookPhase][]Hook` is initialized by
NewManager with exactly the two phase keys, so it is modelled as its two
buckets.  The mutex only guards concurrent access and has no sequential
behavior. -/
structure Manager where
  config : LifecycleConfig
  services : List Service
  startupHooks : List Hook
  shutdownHooks : List Hook
  state : State
  deriving DecidableEq, Repr, Inhabited

/-!
## Go `sort.Slice`

The manager sorts hooks with `sort.Slice`, which Go documents as *not*
guaranteed to be stable.  Its implementation (src/sort/slice.go and
src/sort/zsortfunc.go, Go 1.19+) is a pattern-defeating quicksort: it is
ported here exactly, loop by loop, with an explicit fuel argument in place
of each Go loop/recursion (the fuel supplied at the top is far larger than
the number of iterations any loop can perform; running out of fuel returns
the array unchanged).  Array reads use a default value for out-of-range
indices; in Go every access below is in range.
-/

section GoSort

variable {α : Type} [Inhabited α] (lt : α → α → Bool)

/-- Read `arr[i]` of a Go slice, by structural recursion (defaulting out of
range; never hit on Go's index paths). -/
def aget : List α → Nat → α
  | [], _ => default
  | x :: _, 0 => x
  | _ :: xs, n+1 => aget xs n

/-- Pointwise update `arr[i] = v`, by structural recursion (identity past
the end; never hit on Go's index paths). -/
def aset : List α → Nat → α → List α
  | [], _, _ => []
  | _ :: xs, 0, v => v :: xs
  | x :: xs, n+1, v => x :: aset xs n v

/-- `data.Swap(i, j)`: swap two entries, identity when out of range. -/
def swapIdx (arr : List α) (i j : Nat) : List α :=
  if i < arr.length then
    if j < arr.length then aset (aset arr i (aget arr j)) j (aget arr i)
    else arr
  else arr

/-- `data.Less(i, j)`. -/
def aless (arr : List α) (i j : Nat) : Bool :=
  lt (aget arr i) (aget arr j)

/-- insertionSort_func inner loop: `for j := i; j > a && Less(j, j-1); j--`. -/
def insertionInner : Nat → List α → Nat → Nat → List α
  | 0, arr, _, _ => arr
  | fuel+1, arr, j, a =>
    if a < j && aless lt arr j (j-1) then
      insertionInner fuel (swapIdx arr j (j-1)) (j-1) a
    else arr

/-- insertionSort_func outer loop: `for i := a + 1; i < b; i++`. -/
def insertionOuter : Nat → List α → Nat → Nat → Nat → List α
  | 0, arr, _, _, _ => arr
  | fuel+1, arr, i, a, b =>
    if i < b then
      insertionOuter fuel (insertionInner lt (i+1) arr i a) (i+1) a b
    else arr

/-- insertionSort_func. -/
def insertionSortGo (arr : List α) (a b : Nat) : List α :=
  insertionOuter lt (b+1) arr (a+1) a b

/-- siftDown_func. -/
def siftDownGo : Nat → List α → Nat → Nat → Nat → List α
  | 0, arr, _, _, _ => arr
  | fuel+1, arr, root, hi, first =>
    let child0 := 2*root + 1
    if child0 ≥ hi then arr
    else
      let child :=
        if child0 + 1 < hi && aless lt arr (first+child0) (first+child0+1) then
          child0 + 1
        else child0
      if !(aless lt arr (first+root) (first+child)) then arr
      else siftDownGo fuel (swapIdx arr (first+root) (first+child)) child hi first

/-- heapSort_func build loop: `for i := (hi - 1) / 2; i >= 0; i--`. -/
def heapBuild : Nat → List α → Nat → Nat → List α
  | i, arr, hi, first =>
    let arr2 := siftDownGo lt (hi+1) arr i hi first
    match i with
    | 0 => arr2
    | i'+1 => heapBuild i' arr2 hi first

/-- heapSort_func extract loop: `for i := hi - 1; i >= 0; i--`. -/
def heapExtract : Nat → List α → Nat → List α
  | i, arr, first =>
    let arr2 := swapIdx arr first (first+i)
    let arr3 := siftDownGo lt (i+1) arr2 0 i first
    match i with
    | 0 => arr3
    | i'+1 => heapExtract i' arr3 first

/-- heapSort_func. -/
def heapSortGo (arr : List α) (a b : Nat) : List α :=
  let first := a
  let hi := b - a
  let arr2 := heapBuild lt ((hi-1)/2) arr hi first
  if hi = 0 then arr2 else heapExtract lt (hi-1) arr2 first

/-- reverseRange_func. -/
def reverseRangeGo : Nat → List α → Nat → Nat → List α
  | 0, arr, _, _ => arr
  | fuel+1, arr, i, j =>
    if i < j then reverseRangeGo fuel (swapIdx arr i j) (i+1) (j-1) else arr

/-- order2_func: returns the two indices in order plus the updated swap
counter. -/
def order2Go (arr : List α) (a b : Nat) (swaps : Nat) : Nat × Nat × Nat :=
  if aless lt arr b a then (b, a, swaps+1) else (a, b, swaps)

/-- median_func. -/
def medianGo (arr : List α) (a b c : Nat) (swaps : Nat) : Nat × Nat :=
  let r1 := order2Go lt arr a b swaps
  let a1 := r1.1
  let b1 := r1.2.1
  let r2 := order2Go lt arr b1 c r1.2.2
  let b2 := r2.1
  let r3 := order2Go lt arr a1 b2 r2.2.2
  (r3.2.1, r3.2.2)

/-- medianAdjacent_func: `median(a-1, a, a+1)`. -/
def medianAdjacentGo (arr : List α) (a : Nat) (swaps : Nat) : Nat × Nat :=
  medianGo lt arr (a-1) a (a+1) swaps

/-- sortedHint. -/
inductive SortedHint where
  | unknown
  | increasing
  | decreasing
  deriving DecidableEq, Repr, Inhabited

/-- The hint chosen from the swap counter in choosePivot_func. -/
def hintOfSwaps (swaps : Nat) : SortedHint :=
  if swaps = 0 then .increasing
  else if swaps = 12 then .decreasing
  else .unknown

/-- choosePivot_func. -/
def choosePivotGo (arr : List α) (a b : Nat) : Nat × SortedHint :=
  let l := b - a
  let i := a + l/4*1
  let j := a + l/4*2
  let k := a + l/4*3
  if l ≥ 8 then
    if l ≥ 50 then
      let ri := medianAdjacentGo lt arr i 0
      let rj := medianAdjacentGo lt arr j ri.2
      let rk := medianAdjacentGo lt arr k rj.2
      let rm := medianGo lt arr ri.1 rj.1 rk.1 rk.2
      (rm.1, hintOfSwaps rm.2)
    else
      let rm := medianGo lt arr i j k 0
      (rm.1, hintOfSwaps rm.2)
  else (j, hintOfSwaps 0)

/-- partialInsertionSort_func scan: `for i < b && !Less(i, i-1) { i++ }`. -/
def pisScan : Nat → List α → Nat → Nat → Nat
  | 0, _, i, _ => i
  | fuel+1, arr, i, b =>
    if i < b && !(aless lt arr i (i-1)) then pisScan fuel arr (i+1) b else i

/-- partialInsertionSort_func left shift:
`for j := start; j >= 1; j-- { if !Less(j, j-1) break; Swap(j, j-1) }`. -/
def shiftLeftGo : Nat → List α → Nat → List α
  | 0, arr, _ => arr
  | fuel+1, arr, j =>
    if 1 ≤ j && aless lt arr j (j-1) then
      shiftLeftGo fuel (swapIdx arr j (j-1)) (j-1)
    else arr

/-- partialInsertionSort_func right shift:
`for j := start; j < b; j++ { if !Less(j, j-1) break; Swap(j, j-1) }`. -/
def shiftRightGo : Nat → List α → Nat → Nat → List α
  | 0, arr, _, _ => arr
  | fuel+1, arr, j, b =>
    if j < b && aless lt arr j (j-1) then
      shiftRightGo fuel (swapIdx arr j (j-1)) (j+1) b
    else arr

/-- partialInsertionSort_func main loop (maxSteps = 5, shortestShifting = 50);
the Bool result is Go's return value (true = now sorted). -/
def pisSteps : Nat → List α → Nat → Nat → Nat → List α × Bool
  | 0, arr, _, _, _ => (arr, false)
  | fuel+1, arr, i0, a, b =>
    let i := pisScan lt (b+1) arr i0 b
    if i = b then (arr, true)
    else if b - a < 50 then (arr, false)
    else
      let arr2 := swapIdx arr i (i-1)
      let arr3 := if i - a ≥ 2 then shiftLeftGo lt (b+1) arr2 (i-1) else arr2
      let arr4 := if b - i ≥ 2 then shiftRightGo lt (b+1) arr3 (i+1) b else arr3
      pisSteps fuel arr4 i a b

/-- partialInsertionSort_func. -/
def pInsSortGo (arr : List α) (a b : Nat) : List α × Bool :=
  pisSteps lt 5 arr (a+1) a b

/-- partition_func/partitionEqual_func forward scan
`for i <= j && Less(i, a) { i++ }`. -/
def partScanI : Nat → List α → Nat → Nat → Nat → Nat
  | 0, _, i, _, _ => i
  | fuel+1, arr, i, j, a =>
    if i ≤ j && aless lt arr i a then partScanI fuel arr (i+1) j a else i

/-- partition_func backward scan `for i <= j && !Less(j, a) { j-- }`. -/
def partScanJ : Nat → List α → Nat → Nat → Nat → Nat
  | 0, _, _, j, _ => j
  | fuel+1, arr, i, j, a =>
    if i ≤ j && !(aless lt arr j a) then partScanJ fuel arr i (j-1) a else j

/-- partition_func swap loop (the `for` after the initial scans). -/
def partLoop : Nat → List α → Nat → Nat → Nat → List α × Nat
  | 0, arr, _, j, _ => (arr, j)
  | fuel+1, arr, i0, j0, a =>
    let i := partScanI lt (arr.length+2) arr i0 j0 a
    let j := partScanJ lt (arr.length+2) arr i j0 a
    if i > j then (arr, j)
    else partLoop fuel (swapIdx arr i j) (i+1) (j-1) a

/-- partition_func: returns (array, newpivot, alreadyPartitioned). -/
def partitionGo (arr : List α) (a b pivot : Nat) : List α × Nat × Bool :=
  let arr1 := swapIdx arr a pivot
  let i := partScanI lt (arr1.length+2) arr1 (a+1) (b-1) a
  let j := partScanJ lt (arr1.length+2) arr1 i (b-1) a
  if i > j then
    (swapIdx arr1 j a, j, true)
  else
    let arr2 := swapIdx arr1 i j
    let r := partLoop lt (arr2.length+2) arr2 (i+1) (j-1) a
    (swapIdx r.1 r.2 a, r.2, false)

/-- partitionEqual_func forward scan `for i <= j && !Less(a, i) { i++ }`. -/
def peScanI : Nat → List α → Nat → Nat → Nat → Nat
  | 0, _, i, _, _ => i
  | fuel+1, arr, i, j, a =>
    if i ≤ j && !(aless lt arr a i) then peScanI fuel arr (i+1) j a else i

/-- partitionEqual_func backward scan `for i <= j && Less(a, j) { j-- }`. -/
def peScanJ : Nat → List α → Nat → Nat → Nat → Nat
  | 0, _, _, j, _ => j
  | fuel+1, arr, i, j, a =>
    if i ≤ j && aless lt arr a j then peScanJ fuel arr i (j-1) a else j

/-- partitionEqual_func swap loop; the Nat result is the final `i`. -/
def peLoop : Nat → List α → Nat → Nat → Nat → List α × Nat
  | 0, arr, i, _, _ => (arr, i)
  | fuel+1, arr, i0, j0, a =>
    let i := peScanI lt (arr.length+2) arr i0 j0 a
    let j := peScanJ lt (arr.length+2) arr i j0 a
    if i > j then (arr, i)
    else peLoop fuel (swapIdx arr i j) (i+1) (j-1) a

/-- partitionEqual_func: returns (array, newpivot). -/
def partitionEqualGo (arr : List α) (a b pivot : Nat) : List α × Nat :=
  let arr1 := swapIdx arr a pivot
  peLoop lt (arr1.length+2) arr1 (a+1) (b-1) a

/-- xorshift.Next(): `r ^= r<<13; r ^= r>>7; r ^= r<<17` on uint64. -/
def xorshiftNext (r : Nat) : Nat :=
  let m := 2^64
  let r1 := (r ^^^ (r <<< 13)) % m
  let r2 := r1 ^^^ (r1 >>> 7)
  (r2 ^^^ (r2 <<< 17)) % m

/-- bits.Len (number of bits of a uint). -/
def goBitsLen (n : Nat) : Nat :=
  if n = 0 then 0 else Nat.log2 n + 1

/-- breakPatterns_func (xorshift seeded with the length; `& (modulus-1)` is
`% modulus` since modulus is a power of two). -/
def breakPatternsGo (arr : List α) (a b : Nat) : List α :=
  let length := b - a
  if length ≥ 8 then
    let modulus := 2 ^ goBitsLen length
    let idx := a + (length/4)*2 - 1
    let step := fun (st : List α × Nat) (i : Nat) =>
      let r := xorshiftNext st.2
      let other0 := r % modulus
      let other := if other0 ≥ length then other0 - length else other0
      (swapIdx st.1 (idx - 1 + i) (a + other), r)
    (([0, 1, 2].foldl step (arr, length))).1
  else arr

/-- The `if !wasBalanced { breakPatterns; limit-- }` step of pdqsort_func:
returns the (possibly pattern-broken) array and the new limit. -/
def pdqBreakStage (arr : List α) (a b limit : Nat) (wb : Bool) :
    List α × Nat :=
  if !wb then (breakPatternsGo arr a b, limit - 1) else (arr, limit)

/-- The choosePivot step of pdqsort_func together with the
`if hint == decreasingHint { reverseRange; pivot = ...; hint = increasing }`
adjustment: returns (array, pivot, hint). -/
def pdqPivotStage (arr : List α) (a b : Nat) : List α × Nat × SortedHint :=
  let pv := choosePivotGo lt arr a b
  if pv.2 = SortedHint.decreasing then
    (reverseRangeGo (b+1) arr a (b-1), (b - 1) - (pv.1 - a),
      SortedHint.increasing)
  else (arr, pv.1, pv.2)

/-- The `if wasBalanced && wasPartitioned && hint == increasingHint`
partialInsertionSort attempt of pdqsort_func; Bool result true means the
slice is sorted and pdqsort returns. -/
def pdqPisStage (arr : List α) (a b : Nat) (wb wp : Bool)
    (hint : SortedHint) : List α × Bool :=
  if wb && wp && (hint = SortedHint.increasing) then pInsSortGo lt arr a b
  else (arr, false)

/-- pdqsort_func.  Go's outer `for` loop (which mutates `a`, `b`, `limit`,
`wasBalanced`, `wasPartitioned` and `continue`s) and its recursive calls are
both expressed as fueled recursion; a fresh recursive call resets
wasBalanced/wasPartitioned to true exactly as a new Go call does. -/
def pdqsortGo : Nat → List α → Nat → Nat → Nat → Bool → Bool → List α
  | 0, arr, _, _, _, _, _ => arr
  | fuel+1, arr, a, b, limit, wasBalanced, wasPartitioned =>
    let length := b - a
    if length ≤ 12 then insertionSortGo lt arr a b
    else if limit = 0 then heapSortGo lt arr a b
    else
      let s1 := pdqBreakStage arr a b limit wasBalanced
      let s2 := pdqPivotStage lt s1.1 a b
      let s3 := pdqPisStage lt s2.1 a b wasBalanced wasPartitioned s2.2.2
      if s3.2 then s3.1
      else
        let arrP := s3.1
        let pivot := s2.2.1
        let limit1 := s1.2
        if a > 0 && !(aless lt arrP (a-1) pivot) then
          let pe := partitionEqualGo lt arrP a b pivot
          pdqsortGo fuel pe.1 pe.2 b limit1 wasBalanced wasPartitioned
        else
          let pr := partitionGo lt arrP a b pivot
          let mid := pr.2.1
          let wasPartitioned2 := pr.2.2
          let leftLen := mid - a
          let rightLen := b - mid
          let balanceThreshold := length / 8
          let wasBalanced2 := decide (min leftLen rightLen ≥ balanceThreshold)
          if leftLen < rightLen then
            let arr2 := pdqsortGo fuel pr.1 a mid limit1 true true
            pdqsortGo fuel arr2 (mid+1) b limit1 wasBalanced2 wasPartitioned2
          else
            let arr2 := pdqsortGo fuel pr.1 (mid+1) b limit1 true true
            pdqsortGo fuel arr2 a mid limit1 wasBalanced2 wasPartitioned2

/-- sort.Slice on a list: `limit := bits.Len(uint(length));
pdqsort_func(data, 0, length, limit)`. -/
def goSortSlice (l : List α) : List α :=
  let n := l.length
  pdqsortGo lt ((n+2)*(n+2)+8) l 0 n (goBitsLen n) true true

end GoSort

/-!
## Lifecycle Manager

Manager.Start / Manager.Stop are instrumented with an event trace (which
service/hook calls happened, in order) and a state trace (the states
assigned during the call, in order); both are pure observations of the Go
control flow.  Log statements (logx.*) have no sequential effect and are
not modelled; the timeout context created by Stop carries only a wall-clock
deadline and is likewise not modelled.
-/

/-- The comparison closure passed to sort.Slice by executeHooks:
`hooks[i].Priority < hooks[j].Priority`. -/
def hookLess (h1 h2 : Hook) : Bool :=
  decide (h1.priority < h2.priority)

/-- The hook-running loop at the end of executeHooks: run each hook in
order; on the first failure return
`fmt.Errorf("hook %s failed: %w", hook.Name, err)`.  Also returns the list
of hooks actually invoked (the failing one included). -/
def runHooks : List Hook → List Hook × Option GoError
  | [] => ([], none)
  | h :: rest =>
    match h.fn.result with
    | some e => ([h], some (GoError.wrap ("hook " ++ h.name ++ " failed") e))
    | none =>
      let r := runHooks rest
      (h :: r.1, r.2)

/-- The phase bucket `m.hooks[phase]`. -/
def Manager.hooksOf (m : Manager) (phase : HookPhase) : List Hook :=
  match phase with
  | .startup => m.startupHooks
  | .shutdown => m.shutdownHooks

/-- Manager.executeHooks: filter the phase bucket by exact name match, sort
with sort.Slice by ascending priority, then run hooks until the first
failure.  Returns the hooks invoked (in invocation order) and the error. -/
def Manager.executeHooks (m : Manager) (phase : HookPhase) (name : String) :
    List Hook × Option GoError :=
  let hooks := (m.hooksOf phase).filter (fun h => h.name == name)
  let sorted := goSortSlice hookLess hooks
  runHooks sorted

/-- Observable calls made by Start/Stop, in order. -/
inductive Event where
  | hookRun (phase : HookPhase) (name : String) (priority : Int) (label : String)
  | serviceStart (idx : Nat) (name : String)
  | serviceStop (idx : Nat) (name : String)
  deriving DecidableEq, Repr, Inhabited

/-- The trace entry for one hook invocation. -/
def hookEvent (h : Hook) : Event :=
  .hookRun h.phase h.name h.priority h.fn.label

/-- The service-start loop of Manager.Start: start services front to back,
aborting on the first error with the failing service's name.  `i` is the
index of the first service in the remaining list. -/
def startServicesFrom : Nat → List Service → List Event × Option (String × GoError)
  | _, [] => ([], none)
  | i, s :: rest =>
    match s.startResult with
    | some e => ([.serviceStart i s.name], some (s.name, e))
    | none =>
      let r := startServicesFrom (i+1) rest
      (.serviceStart i s.name :: r.1, r.2)

/-- The service-stop loop of Manager.Stop, applied to the enumerated service
list already reversed (Go iterates `i := len-1; i >= 0; i--`): every service
is stopped; the first error encountered is retained. -/
def stopServicesRev : List (Nat × Service) → List Event × Option GoError
  | [] => ([], none)
  | (i, s) :: rest =>
    let r := stopServicesRev rest
    (.serviceStop i s.name :: r.1,
      match s.stopResult with
      | some e => some e
      | none => r.2)

/-- The outcome of one Start or Stop call: the manager afterwards, the event
trace, the states assigned during the call (in order), and the returned
error. -/
structure OpResult where
  mgr : Manager
  events : List Event
  states : List State
  err : Option GoError
  deriving DecidableEq, Repr, Inhabited

/-- NewManager: defaulting of zero durations, empty service list, the two
hook buckets, initial state Idle. -/
def newManager (config : LifecycleConfig) : Manager :=
  let st :=
    if config.shutdownTimeout = 0 then 30 * durationSecond
    else config.shutdownTimeout
  let gp :=
    if config.gracePeriod = 0 then 5 * durationSecond else config.gracePeriod
  { config := { shutdownTimeout := st, gracePeriod := gp },
    services := [],
    startupHooks := [],
    shutdownHooks := [],
    state := .idle }

/-- Manager.Register: append to the service list. -/
def Manager.registerService (m : Manager) (svc : Service) : Manager :=
  { m with services := m.services ++ [svc] }

/-- Manager.AddHook: append to the phase bucket. -/
def Manager.addHook (m : Manager) (h : Hook) : Manager :=
  match h.phase with
  | .startup => { m with startupHooks := m.startupHooks ++ [h] }
  | .shutdown => { m with shutdownHooks := m.shutdownHooks ++ [h] }

/-- Manager.Start.  Sets state Starting; runs before_start startup hooks
(failure: state Error, wrapped error, no service started); starts services
in registration order (first failure: state Error, error wrapping the
service name); runs after_start startup hooks (failure only logged); sets
state Running. -/
def Manager.start (m : Manager) : OpResult :=
  let m1 := { m with state := State.starting }
  let pre := m1.executeHooks .startup "before_start"
  match pre.2 with
  | some e =>
    { mgr := { m1 with state := State.error },
      events := pre.1.map hookEvent,
      states := [State.starting, State.error],
      err := some (.wrap "pre-start hooks failed" e) }
  | none =>
    let sres := startServicesFrom 0 m1.services
    match sres.2 with
    | some fe =>
      { mgr := { m1 with state := State.error },
        events := pre.1.map hookEvent ++ sres.1,
        states := [State.starting, State.error],
        err := some (.wrap ("service " ++ fe.1 ++ " failed to start") fe.2) }
    | none =>
      let post := m1.executeHooks .startup "after_start"
      { mgr := { m1 with state := State.running },
        events := pre.1.map hookEvent ++ sres.1 ++ post.1.map hookEvent,
        states := [State.starting, State.running],
        err := none }

/-- Manager.Stop.  Sets state Stopping; creates the timeout context (wall
clock, not modelled); runs before_stop shutdown hooks (failure only
logged); stops every service in reverse registration order retaining the
first error; runs after_stop shutdown hooks (failure only logged); sets
state Stopped and returns the retained error. -/
def Manager.stop (m : Manager) : OpResult :=
  let m1 := { m with state := State.stopping }
  let pre := m1.executeHooks .shutdown "before_stop"
  let sres := stopServicesRev m1.services.enum.reverse
  let post := m1.executeHooks .shutdown "after_stop"
  { mgr := { m1 with state := State.stopped },
    events := pre.1.map hookEvent ++ sres.1 ++ post.1.map hookEvent,
    states := [State.stopping, State.stopped],
    err := sres.2 }

/-- The service-start events of a trace. -/
def serviceStartEvents (evs : List Event) : List Event :=
  evs.filter (fun e => match e with | .serviceStart _ _ => true | _ => false)

/-- The service-stop events of a trace. -/
def serviceStopEvents (evs : List Event) : List Event :=
  evs.filter (fun e => match e with | .serviceStop _ _ => true | _ => false)

/-!
## Health aggregator (src/lifecycle/health.go)
-/

/-- lifecycle.HealthStatus. -/
inductive HealthStatus where
  | up
  | down
  | degraded
  deriving DecidableEq, Repr, Inhabited

/-- lifecycle.ComponentHealth.  Details is never set by Check and Timestamp
is wall clock; only Status is modelled. -/
structure ComponentHealth where
  status : HealthStatus
  deriving DecidableEq, Repr, Inhabited

/-- A Go map value: either nil or allocated with entries.  Assignment to an
allocated map replaces the entry with the matching key or appends. -/
inductive GoMap (β : Type) : Type where
  | nilMap : GoMap β
  | alloc : List (String × β) → GoMap β
  deriving DecidableEq, Repr

/-- Go map assignment `m[k] = v` on an entry list. -/
def mapSet {β : Type} (l : List (String × β)) (k : String) (v : β) :
    List (String × β) :=
  if l.any (fun p => p.1 == k) then
    l.map (fun p => if p.1 == k then (k, v) else p)
  else l ++ [(k, v)]

/-- lifecycle.HealthResponse (Timestamp not modelled). -/
structure HealthResponse where
  status : HealthStatus
  components : GoMap ComponentHealth
  deriving DecidableEq, Repr

/-- lifecycle.HealthManager: the checks map, each check modelled by the
status it reports.  Entry order stands in for Go's (unspecified) map
iteration order; the reduction in Check is insensitive to it. -/
structure HealthManager where
  checks : List (String × HealthStatus)
  deriving DecidableEq, Repr, Inhabited

/-- NewHealthManager: empty checks map. -/
def newHealthManager : HealthManager :=
  { checks := [] }

/-- HealthManager.Register: `h.checks[name] = check`. -/
def HealthManager.registerCheck (hm : HealthManager) (name : String)
    (st : HealthStatus) : HealthManager :=
  { checks := mapSet hm.checks name st }

/-- The loop body of HealthManager.Check: record the component, then apply
the overall-status update (`down` always wins; `degraded` only upgrades
`up`). -/
def checkLoop : List (String × HealthStatus) →
    List (String × ComponentHealth) → HealthStatus →
    List (String × ComponentHealth) × HealthStatus
  | [], comps, st => (comps, st)
  | (nm, s) :: rest, comps, st =>
    let comps2 := mapSet comps nm ⟨s⟩
    let st2 :=
      if s == HealthStatus.down then HealthStatus.down
      else if s == HealthStatus.degraded && st == HealthStatus.up then
        HealthStatus.degraded
      else st
    checkLoop rest comps2 st2

/-- HealthManager.Check: response initialized with status Up and an
allocated empty Components map, then the loop over all checks. -/
def HealthManager.check (hm : HealthManager) : HealthResponse :=
  let r := checkLoop hm.checks [] HealthStatus.up
  { status := r.2, components := GoMap.alloc r.1 }

/-!
## Concrete instances used by witnesses and counterexamples
-/

/-- Thirteen hooks for the before_start moment, registered in label order
h0..h12, with priorities i*7 mod 5 = [0,2,4,1,3,0,2,4,1,3,0,2,4]: hooks
h0, h5, h10 share priority 0. -/
def hooks13 : List Hook :=
  (List.range 13).map (fun i =>
    { name := "before_start", phase := HookPhase.startup,
      priority := ((i * 7) % 5 : Nat),
      fn := { label := "h" ++ toString i, result := none } })

/-- A manager with the thirteen hooks of `hooks13` added in order. -/
def m13 : Manager :=
  hooks13.foldl Manager.addHook
    (newManager { shutdownTimeout := 0, gracePeriod := 0 })

/-- Two well-behaved services registered in order A, B. -/
def mC1 : Manager :=
  ((newManager { shutdownTimeout := 0, gracePeriod := 0 }).registerService
      { name := "A", startResult := none, stopResult := none }).registerService
    { name := "B", startResult := none, stopResult := none }

/-- Services A (ok), F (Start fails), C (ok), registered in that order. -/
def mC3 : Manager :=
  (((newManager { shutdownTimeout := 0, gracePeriod := 0 }).registerService
        { name := "A", startResult := none, stopResult := none }).registerService
      { name := "F", startResult := some (.msg "boom"), stopResult := none }).registerService
    { name := "C", startResult := none, stopResult := none }

/-- Services whose Stop fails for A and B but not C, registered A, B, C. -/
def mC4 : Manager :=
  (((newManager { shutdownTimeout := 0, gracePeriod := 0 }).registerService
        { name := "A", startResult := none, stopResult := some (.msg "stopA") }).registerService
      { name := "B", startResult := none, stopResult := some (.msg "stopB") }).registerService
    { name := "C", startResult := none, stopResult := none }

/-- A failing before_start hook plus one healthy service. -/
def mC5a : Manager :=
  ((newManager { shutdownTimeout := 0, gracePeriod := 0 }).addHook
      { name := "before_start", phase := .startup, priority := 1,
        fn := { label := "bad", result := some (.msg "hookfail") } }).registerService
    { name := "A", startResult := none, stopResult := none }

/-- A failing after_start hook plus one healthy service. -/
def mC5b : Manager :=
  ((newManager { shutdownTimeout := 0, gracePeriod := 0 }).addHook
      { name := "after_start", phase := .startup, priority := 1,
        fn := { label := "abad", result := some (.msg "afterfail") } }).registerService
    { name := "A", startResult := none, stopResult := none }

/-- A fresh manager with one healthy service. -/
def mC6 : Manager :=
  (newManager { shutdownTimeout := 0, gracePeriod := 0 }).registerService
    { name := "A", startResult := none, stopResult := none }

/-- The spec scenario health manager: db reports up, cache degraded. -/
def hmC8 : HealthManager :=
  (newHealthManager.registerCheck "db" HealthStatus.up).registerCheck "cache"
    HealthStatus.degraded

/-- A fresh manager with no services, state Idle. -/
def mC9 : Manager :=
  newManager { shutdownTimeout := 0, gracePeriod := 0 }

/-!
## Permutation facts about the sort

Every mutation in the pdqsort port is a `swapIdx`, so each routine
permutes the array.  This is what links executeHooks back to the
registered hooks: the hooks it runs are exactly the filtered hooks,
rearranged.
-/

section GoSortPerm

variable {α : Type}

theorem cons_set_perm (a : α) :
    ∀ (t : List α) (m : Nat) (hm : m < t.length),
      List.Perm (t.get ⟨m, hm⟩ :: t.set m a) (a :: t) := by
  intro t
  induction t with
  | nil => intro m hm; simp at hm
  | cons b t' ih =>
    intro m hm
    match m with
    | 0 => exact List.Perm.swap a b t'
    | Nat.succ k =>
      have hk : k < t'.length := by simpa using hm
      have s1 : List.Perm (t'.get ⟨k, hk⟩ :: b :: t'.set k a)
          (b :: t'.get ⟨k, hk⟩ :: t'.set k a) :=
        List.Perm.swap b (t'.get ⟨k, hk⟩) (t'.set k a)
      exact s1.trans ((List.Perm.cons b (ih k hk)).trans (List.Perm.swap a b t'))

theorem set_set_perm :
    ∀ (l : List α) (i j : Nat) (hi : i < l.length) (hj : j < l.length),
      List.Perm ((l.set i (l.get ⟨j, hj⟩)).set j (l.get ⟨i, hi⟩)) l := by
  intro l
  induction l with
  | nil => intro i j hi; simp at hi
  | cons a t ih =>
    intro i j hi hj
    match i, j with
    | 0, 0 => exact List.Perm.refl _
    | 0, Nat.succ m =>
      have hm : m < t.length := by simpa using hj
      exact cons_set_perm a t m hm
    | Nat.succ n, 0 =>
      have hn : n < t.length := by simpa using hi
      exact cons_set_perm a t n hn
    | Nat.succ n, Nat.succ m =>
      have hn : n < t.length := by simpa using hi
      have hm : m < t.length := by simpa using hj
      exact List.Perm.cons a (ih n m hn hm)

theorem itePerm {L : List α} {c : Prop} [Decidable c] {x y : List α}
    (hx : List.Perm x L) (hy : List.Perm y L) :
    List.Perm (if c then x else y) L := by
  split
  · exact hx
  · exact hy

theorem itePermFst {L : List α} {c : Prop} [Decidable c]
    {x y : List α × Bool} (hx : List.Perm x.1 L)
    (hy : List.Perm y.1 L) :
    List.Perm (if c then x else y).1 L := by
  split
  · exact hx
  · exact hy

end GoSortPerm

section GoSortPerm1b

variable {α : Type} [Inhabited α]

omit [Inhabited α] in
theorem aset_eq_set : ∀ (l : List α) (n : Nat) (v : α), aset l n v = l.set n v := by
  intro l
  induction l with
  | nil => intro n v; cases n <;> rfl
  | cons x xs ih =>
    intro n v
    cases n with
    | zero => rfl
    | succ k => simpa [aset] using ih k v

theorem aget_eq_get :
    ∀ (l : List α) (n : Nat) (h : n < l.length), aget l n = l.get ⟨n, h⟩ := by
  intro l
  induction l with
  | nil => intro n h; simp at h
  | cons x xs ih =>
    intro n h
    cases n with
    | zero => rfl
    | succ k =>
      have hk : k < xs.length := by simpa using h
      simpa [aget] using ih k hk

theorem swapIdx_perm (arr : List α) (i j : Nat) :
    List.Perm (swapIdx arr i j) arr := by
  unfold swapIdx
  split
  · split
    · next h1 h2 =>
      rw [aset_eq_set, aset_eq_set, aget_eq_get arr j h2, aget_eq_get arr i h1]
      exact set_set_perm arr i j h1 h2
    · exact List.Perm.refl _
  · exact List.Perm.refl _

end GoSortPerm1b

section GoSortPerm2

variable {α : Type} [Inhabited α] (lt : α → α → Bool)

theorem insertionInner_perm (fuel : Nat) :
    ∀ (arr : List α) (j a : Nat),
      List.Perm (insertionInner lt fuel arr j a) arr := by
  induction fuel with
  | zero => intro arr j a; exact List.Perm.refl _
  | succ n ih =>
    intro arr j a
    rw [insertionInner]
    split
    · exact (ih _ _ _).trans (swapIdx_perm arr j (j-1))
    · exact List.Perm.refl _

theorem insertionOuter_perm (fuel : Nat) :
    ∀ (arr : List α) (i a b : Nat),
      List.Perm (insertionOuter lt fuel arr i a b) arr := by
  induction fuel with
  | zero => intro arr i a b; exact List.Perm.refl _
  | succ n ih =>
    intro arr i a b
    rw [insertionOuter]
    split
    · exact (ih _ _ _ _).trans (insertionInner_perm lt _ _ _ _)
    · exact List.Perm.refl _

theorem insertionSortGo_perm (arr : List α) (a b : Nat) :
    List.Perm (insertionSortGo lt arr a b) arr :=
  insertionOuter_perm lt _ _ _ _ _

theorem siftDownGo_perm (fuel : Nat) :
    ∀ (arr : List α) (root hi first : Nat),
      List.Perm (siftDownGo lt fuel arr root hi first) arr := by
  induction fuel with
  | zero => intro arr root hi first; exact List.Perm.refl _
  | succ n ih =>
    intro arr root hi first
    rw [siftDownGo]
    dsimp only
    split
    · exact List.Perm.refl _
    · split <;> split
      · exact List.Perm.refl _
      · exact (ih _ _ _ _).trans (swapIdx_perm _ _ _)
      · exact List.Perm.refl _
      · exact (ih _ _ _ _).trans (swapIdx_perm _ _ _)

theorem heapBuild_perm (i : Nat) :
    ∀ (arr : List α) (hi first : Nat),
      List.Perm (heapBuild lt i arr hi first) arr := by
  induction i with
  | zero =>
    intro arr hi first
    rw [heapBuild]
    exact siftDownGo_perm lt _ _ _ _ _
  | succ n ih =>
    intro arr hi first
    rw [heapBuild]
    exact (ih _ _ _).trans (siftDownGo_perm lt _ _ _ _ _)

theorem heapExtract_perm (i : Nat) :
    ∀ (arr : List α) (first : Nat),
      List.Perm (heapExtract lt i arr first) arr := by
  induction i with
  | zero =>
    intro arr first
    rw [heapExtract]
    exact (siftDownGo_perm lt _ _ _ _ _).trans (swapIdx_perm _ _ _)
  | succ n ih =>
    intro arr first
    rw [heapExtract]
    exact (ih _ _).trans ((siftDownGo_perm lt _ _ _ _ _).trans (swapIdx_perm _ _ _))

theorem heapSortGo_perm (arr : List α) (a b : Nat) :
    List.Perm (heapSortGo lt arr a b) arr := by
  unfold heapSortGo
  dsimp only
  split
  · exact heapBuild_perm lt _ _ _ _
  · exact (heapExtract_perm lt _ _ _).trans (heapBuild_perm lt _ _ _ _)

theorem reverseRangeGo_perm (fuel : Nat) :
    ∀ (arr : List α) (i j : Nat),
      List.Perm (reverseRangeGo fuel arr i j) arr := by
  induction fuel with
  | zero => intro arr i j; exact List.Perm.refl _
  | succ n ih =>
    intro arr i j
    rw [reverseRangeGo]
    split
    · exact (ih _ _ _).trans (swapIdx_perm _ _ _)
    · exact List.Perm.refl _

theorem shiftLeftGo_perm (fuel : Nat) :
    ∀ (arr : List α) (j : Nat),
      List.Perm (shiftLeftGo lt fuel arr j) arr := by
  induction fuel with
  | zero => intro arr j; exact List.Perm.refl _
  | succ n ih =>
    intro arr j
    rw [shiftLeftGo]
    split
    · exact (ih _ _).trans (swapIdx_perm _ _ _)
    · exact List.Perm.refl _

theorem shiftRightGo_perm (fuel : Nat) :
    ∀ (arr : List α) (j b : Nat),
      List.Perm (shiftRightGo lt fuel arr j b) arr := by
  induction fuel with
  | zero => intro arr j b; exact List.Perm.refl _
  | succ n ih =>
    intro arr j b
    rw [shiftRightGo]
    split
    · exact (ih _ _ _).trans (swapIdx_perm _ _ _)
    · exact List.Perm.refl _

theorem pisSteps_perm (fuel : Nat) :
    ∀ (arr : List α) (i a b : Nat),
      List.Perm (pisSteps lt fuel arr i a b).1 arr := by
  induction fuel with
  | zero => intro arr i a b; exact List.Perm.refl _
  | succ n ih =>
    intro arr i a b
    rw [pisSteps]
    dsimp only
    split
    · exact List.Perm.refl _
    · split
      · exact List.Perm.refl _
      · refine (ih _ _ _ _).trans ?_
        refine itePerm ?x1 ?x2
        case x1 =>
          exact (shiftRightGo_perm lt _ _ _ _).trans
            (itePerm ((shiftLeftGo_perm lt _ _ _).trans (swapIdx_perm _ _ _))
              (swapIdx_perm _ _ _))
        case x2 =>
          exact itePerm ((shiftLeftGo_perm lt _ _ _).trans (swapIdx_perm _ _ _))
            (swapIdx_perm _ _ _)

theorem pInsSortGo_perm (arr : List α) (a b : Nat) :
    List.Perm (pInsSortGo lt arr a b).1 arr :=
  pisSteps_perm lt 5 arr (a+1) a b

theorem partLoop_perm (fuel : Nat) :
    ∀ (arr : List α) (i j a : Nat),
      List.Perm (partLoop lt fuel arr i j a).1 arr := by
  induction fuel with
  | zero => intro arr i j a; exact List.Perm.refl _
  | succ n ih =>
    intro arr i j a
    rw [partLoop]
    split
    · exact List.Perm.refl _
    · exact (ih _ _ _ _).trans (swapIdx_perm _ _ _)

theorem partitionGo_perm (arr : List α) (a b pivot : Nat) :
    List.Perm (partitionGo lt arr a b pivot).1 arr := by
  unfold partitionGo
  dsimp only
  split
  · exact (swapIdx_perm _ _ _).trans (swapIdx_perm _ _ _)
  · refine (swapIdx_perm _ _ _).trans ?_
    refine (partLoop_perm lt _ _ _ _ _).trans ?_
    exact (swapIdx_perm _ _ _).trans (swapIdx_perm _ _ _)

theorem peLoop_perm (fuel : Nat) :
    ∀ (arr : List α) (i j a : Nat),
      List.Perm (peLoop lt fuel arr i j a).1 arr := by
  induction fuel with
  | zero => intro arr i j a; exact List.Perm.refl _
  | succ n ih =>
    intro arr i j a
    rw [peLoop]
    split
    · exact List.Perm.refl _
    · exact (ih _ _ _ _).trans (swapIdx_perm _ _ _)

theorem partitionEqualGo_perm (arr : List α) (a b pivot : Nat) :
    List.Perm (partitionEqualGo lt arr a b pivot).1 arr := by
  unfold partitionEqualGo
  exact (peLoop_perm lt _ _ _ _ _).trans (swapIdx_perm _ _ _)

theorem breakPatternsGo_perm (arr : List α) (a b : Nat) :
    List.Perm (breakPatternsGo arr a b) arr := by
  unfold breakPatternsGo
  dsimp only [List.foldl]
  split
  · exact (swapIdx_perm _ _ _).trans
      ((swapIdx_perm _ _ _).trans (swapIdx_perm _ _ _))
  · exact List.Perm.refl _

theorem pdqBreakStage_perm (arr : List α) (a b limit : Nat) (wb : Bool) :
    List.Perm (pdqBreakStage arr a b limit wb).1 arr := by
  unfold pdqBreakStage
  split
  · exact breakPatternsGo_perm _ _ _
  · exact List.Perm.refl _

theorem pdqPivotStage_perm (arr : List α) (a b : Nat) :
    List.Perm (pdqPivotStage lt arr a b).1 arr := by
  unfold pdqPivotStage
  dsimp only
  split
  · exact reverseRangeGo_perm _ _ _ _
  · exact List.Perm.refl _

theorem pdqPisStage_perm (arr : List α) (a b : Nat) (wb wp : Bool)
    (hint : SortedHint) :
    List.Perm (pdqPisStage lt arr a b wb wp hint).1 arr := by
  unfold pdqPisStage
  split
  · exact pInsSortGo_perm lt _ _ _
  · exact List.Perm.refl _

theorem pdqsortGo_perm (fuel : Nat) :
    ∀ (arr : List α) (a b limit : Nat) (wb wp : Bool),
      List.Perm (pdqsortGo lt fuel arr a b limit wb wp) arr := by
  induction fuel with
  | zero => intro arr a b limit wb wp; exact List.Perm.refl _
  | succ n ih =>
    intro arr a b limit wb wp
    rw [pdqsortGo]
    dsimp only
    have hstages :
        List.Perm
          (pdqPisStage lt
            (pdqPivotStage lt (pdqBreakStage arr a b limit wb).1 a b).1 a b wb
            wp
            (pdqPivotStage lt
              (pdqBreakStage arr a b limit wb).1 a b).2.2).1
          arr :=
      (pdqPisStage_perm lt _ _ _ _ _ _).trans
        ((pdqPivotStage_perm lt _ _ _).trans (pdqBreakStage_perm _ _ _ _ _))
    split
    · exact insertionSortGo_perm lt _ _ _
    · split
      · exact heapSortGo_perm lt _ _ _
      · split
        · exact hstages
        · split
          · exact (ih _ _ _ _ _ _).trans
              ((partitionEqualGo_perm lt _ _ _ _).trans hstages)
          · split
            · exact (ih _ _ _ _ _ _).trans
                ((ih _ _ _ _ _ _).trans
                  ((partitionGo_perm lt _ _ _ _).trans hstages))
            · exact (ih _ _ _ _ _ _).trans
                ((ih _ _ _ _ _ _).trans
                  ((partitionGo_perm lt _ _ _ _).trans hstages))

theorem goSortSlice_perm (l : List α) :
    List.Perm (goSortSlice lt l) l := by
  unfold goSortSlice
  dsimp only
  refine (pdqsortGo_perm lt _ _ _ _ _ _ _).trans ?_
  simp

end GoSortPerm2

/-!
## Facts about the hook and service loops
-/

theorem runHooks_all_ok :
    ∀ (l : List Hook), (∀ h ∈ l, h.fn.result = none) → runHooks l = (l, none) := by
  intro l
  induction l with
  | nil => intro _; rfl
  | cons h rest ih =>
    intro hall
    have hh : h.fn.result = none := hall h (List.mem_cons_self h rest)
    have hr := ih (fun x hx => hall x (List.mem_cons_of_mem h hx))
    simp [runHooks, hh, hr]

theorem runHooks_err :
    ∀ (l : List Hook) (nm : String), (∀ h ∈ l, h.name = nm) →
      (∃ h ∈ l, h.fn.result.isSome) →
      ∃ e', (runHooks l).2 =
          some (GoError.wrap ("hook " ++ nm ++ " failed") e') ∧
        ∃ h' ∈ l, h'.fn.result = some e' := by
  intro l
  induction l with
  | nil =>
    intro nm _ hex
    rcases hex with ⟨h, hmem, _⟩
    cases hmem
  | cons h rest ih =>
    intro nm hall hex
    cases hres : h.fn.result with
    | some e =>
      refine ⟨e, ?_, h, List.mem_cons_self _ _, hres⟩
      have hname : h.name = nm := hall h (List.mem_cons_self _ _)
      simp [runHooks, hres, hname]
    | none =>
      have hex' : ∃ x ∈ rest, x.fn.result.isSome := by
        rcases hex with ⟨x, hx, hxs⟩
        rcases List.mem_cons.mp hx with heq | hmem
        · rw [heq, hres] at hxs; simp at hxs
        · exact ⟨x, hmem, hxs⟩
      rcases ih nm (fun x hx => hall x (List.mem_cons_of_mem _ hx)) hex' with
        ⟨e', he', h', hm', hr'⟩
      refine ⟨e', ?_, h', List.mem_cons_of_mem _ hm', hr'⟩
      simpa [runHooks, hres] using he'

theorem executeHooks_ok (m : Manager) (phase : HookPhase) (nm : String)
    (hok : ∀ h ∈ m.hooksOf phase, h.name = nm → h.fn.result = none) :
    (m.executeHooks phase nm).2 = none := by
  unfold Manager.executeHooks
  dsimp only
  have hperm :=
    goSortSlice_perm hookLess ((m.hooksOf phase).filter (fun h => h.name == nm))
  have hall : ∀ h ∈ goSortSlice hookLess
      ((m.hooksOf phase).filter (fun h => h.name == nm)),
      h.fn.result = none := by
    intro h hmem
    have hm2 := List.mem_filter.mp (hperm.mem_iff.mp hmem)
    exact hok h hm2.1 (by simpa using hm2.2)
  rw [runHooks_all_ok _ hall]

theorem executeHooks_err (m : Manager) (phase : HookPhase) (nm : String)
    (hex : ∃ h ∈ m.hooksOf phase, h.name = nm ∧ h.fn.result.isSome) :
    ∃ e', (m.executeHooks phase nm).2 =
        some (GoError.wrap ("hook " ++ nm ++ " failed") e') ∧
      ∃ h' ∈ m.hooksOf phase, h'.name = nm ∧ h'.fn.result = some e' := by
  unfold Manager.executeHooks
  dsimp only
  have hperm :=
    goSortSlice_perm hookLess ((m.hooksOf phase).filter (fun h => h.name == nm))
  have hallname : ∀ h ∈ goSortSlice hookLess
      ((m.hooksOf phase).filter (fun h => h.name == nm)), h.name = nm := by
    intro h hmem
    have hm2 := List.mem_filter.mp (hperm.mem_iff.mp hmem)
    simpa using hm2.2
  have hex2 : ∃ h ∈ goSortSlice hookLess
      ((m.hooksOf phase).filter (fun h => h.name == nm)),
      h.fn.result.isSome := by
    rcases hex with ⟨h, hmem, hnm, hsome⟩
    exact ⟨h, hperm.mem_iff.mpr (List.mem_filter.mpr ⟨hmem, by simpa using hnm⟩),
      hsome⟩
  rcases runHooks_err _ nm hallname hex2 with ⟨e', he', h', hm', hr'⟩
  have hm2 := List.mem_filter.mp (hperm.mem_iff.mp hm')
  exact ⟨e', he', h', hm2.1, by simpa using hm2.2, hr'⟩

theorem startServicesFrom_all_ok :
    ∀ (l : List Service) (i : Nat), (∀ s ∈ l, s.startResult = none) →
      startServicesFrom i l =
        ((l.enumFrom i).map (fun p => Event.serviceStart p.1 p.2.name), none) := by
  intro l
  induction l with
  | nil => intro i _; rfl
  | cons s rest ih =>
    intro i hall
    have hs : s.startResult = none := hall s (List.mem_cons_self _ _)
    have hr := ih (i+1) (fun x hx => hall x (List.mem_cons_of_mem _ hx))
    simp [startServicesFrom, hs, hr]

theorem startServicesFrom_fail :
    ∀ (pre : List Service) (i : Nat) (f : Service) (post : List Service)
      (e : GoError),
      (∀ s ∈ pre, s.startResult = none) → f.startResult = some e →
      startServicesFrom i (pre ++ f :: post) =
        (((pre ++ [f]).enumFrom i).map
          (fun p => Event.serviceStart p.1 p.2.name), some (f.name, e)) := by
  intro pre
  induction pre with
  | nil =>
    intro i f post e _ hf
    simp [startServicesFrom, hf]
  | cons s rest ih =>
    intro i f post e hall hf
    have hs : s.startResult = none := hall s (List.mem_cons_self _ _)
    have hr := ih (i+1) f post e (fun x hx => hall x (List.mem_cons_of_mem _ hx)) hf
    simp [startServicesFrom, hs, hr]

theorem startServicesFrom_none_ok :
    ∀ (l : List Service) (i : Nat), (startServicesFrom i l).2 = none →
      ∀ s ∈ l, s.startResult = none := by
  intro l
  induction l with
  | nil => intro i _ s hs; cases hs
  | cons s rest ih =>
    intro i hnone x hx
    cases hres : s.startResult with
    | some e => simp [startServicesFrom, hres] at hnone
    | none =>
      rcases List.mem_cons.mp hx with heq | hmem
      · rw [heq]; exact hres
      · refine ih (i+1) ?_ x hmem
        simpa [startServicesFrom, hres] using hnone

theorem stopServicesRev_events :
    ∀ (pl : List (Nat × Service)),
      (stopServicesRev pl).1 =
        pl.map (fun p => Event.serviceStop p.1 p.2.name) := by
  intro pl
  induction pl with
  | nil => rfl
  | cons p rest ih =>
    cases p with
    | mk i s => simp [stopServicesRev, ih]

theorem stopServicesRev_err :
    ∀ (pl : List (Nat × Service)),
      (stopServicesRev pl).2 = pl.findSome? (fun p => p.2.stopResult) := by
  intro pl
  induction pl with
  | nil => rfl
  | cons p rest ih =>
    cases p with
    | mk i s =>
      cases hres : s.stopResult with
      | some e => simp [stopServicesRev, List.findSome?_cons, hres]
      | none => simp [stopServicesRev, List.findSome?_cons, hres, ih]

theorem serviceStartEvents_append (xs ys : List Event) :
    serviceStartEvents (xs ++ ys) =
      serviceStartEvents xs ++ serviceStartEvents ys := by
  simp [serviceStartEvents]

theorem serviceStopEvents_append (xs ys : List Event) :
    serviceStopEvents (xs ++ ys) =
      serviceStopEvents xs ++ serviceStopEvents ys := by
  simp [serviceStopEvents]

theorem serviceStartEvents_hooks (hs : List Hook) :
    serviceStartEvents (hs.map hookEvent) = [] := by
  simp [serviceStartEvents, hookEvent]

theorem serviceStopEvents_hooks (hs : List Hook) :
    serviceStopEvents (hs.map hookEvent) = [] := by
  simp [serviceStopEvents, hookEvent]

theorem serviceStartEvents_starts (pl : List (Nat × Service)) :
    serviceStartEvents (pl.map (fun p => Event.serviceStart p.1 p.2.name)) =
      pl.map (fun p => Event.serviceStart p.1 p.2.name) := by
  induction pl with
  | nil => rfl
  | cons p rest ih => simp [serviceStartEvents] at ih ⊢; exact ih

theorem serviceStopEvents_stops (pl : List (Nat × Service)) :
    serviceStopEvents (pl.map (fun p => Event.serviceStop p.1 p.2.name)) =
      pl.map (fun p => Event.serviceStop p.1 p.2.name) := by
  induction pl with
  | nil => rfl
  | cons p rest ih => simp [serviceStopEvents] at ih ⊢; exact ih

theorem serviceStopEvents_starts (pl : List (Nat × Service)) :
    serviceStopEvents (pl.map (fun p => Event.serviceStart p.1 p.2.name)) = [] := by
  induction pl with
  | nil => rfl
  | cons p rest ih => simp [serviceStopEvents] at ih ⊢; exact ih

/-!
## Characterizations of Start and Stop
-/

theorem executeHooks_state_irrel (m : Manager) (s : State) (phase : HookPhase)
    (nm : String) :
    (({ m with state := s } : Manager).executeHooks phase nm) =
      m.executeHooks phase nm := by
  cases phase <;> rfl

theorem start_pre_err (m : Manager) (e : GoError)
    (h : (m.executeHooks .startup "before_start").2 = some e) :
    m.start =
      { mgr := { m with state := State.error },
        events := (m.executeHooks .startup "before_start").1.map hookEvent,
        states := [State.starting, State.error],
        err := some (.wrap "pre-start hooks failed" e) } := by
  unfold Manager.start
  dsimp only
  rw [executeHooks_state_irrel, h]

theorem start_svc_err (m : Manager) (nm : String) (e : GoError)
    (hpre : (m.executeHooks .startup "before_start").2 = none)
    (hsvc : (startServicesFrom 0 m.services).2 = some (nm, e)) :
    m.start =
      { mgr := { m with state := State.error },
        events := (m.executeHooks .startup "before_start").1.map hookEvent ++
          (startServicesFrom 0 m.services).1,
        states := [State.starting, State.error],
        err := some (.wrap ("service " ++ nm ++ " failed to start") e) } := by
  unfold Manager.start
  dsimp only
  rw [executeHooks_state_irrel, hpre, hsvc]

theorem start_ok (m : Manager)
    (hpre : (m.executeHooks .startup "before_start").2 = none)
    (hsvc : (startServicesFrom 0 m.services).2 = none) :
    m.start =
      { mgr := { m with state := State.running },
        events := (m.executeHooks .startup "before_start").1.map hookEvent ++
          (startServicesFrom 0 m.services).1 ++
          (m.executeHooks .startup "after_start").1.map hookEvent,
        states := [State.starting, State.running],
        err := none } := by
  unfold Manager.start
  dsimp only
  simp only [executeHooks_state_irrel]
  rw [hpre, hsvc]

theorem stop_spec (m : Manager) :
    m.stop =
      { mgr := { m with state := State.stopped },
        events := (m.executeHooks .shutdown "before_stop").1.map hookEvent ++
          (stopServicesRev m.services.enum.reverse).1 ++
          (m.executeHooks .shutdown "after_stop").1.map hookEvent,
        states := [State.stopping, State.stopped],
        err := (stopServicesRev m.services.enum.reverse).2 } := by
  unfold Manager.stop
  dsimp only
  simp only [executeHooks_state_irrel]

theorem stop_events_reverse (m : Manager) :
    serviceStopEvents m.stop.events =
      (m.services.enum.map (fun p => Event.serviceStop p.1 p.2.name)).reverse := by
  rw [stop_spec]
  dsimp only
  rw [serviceStopEvents_append, serviceStopEvents_append,
    serviceStopEvents_hooks, serviceStopEvents_hooks,
    stopServicesRev_events, serviceStopEvents_stops]
  simp

theorem stop_err_eq (m : Manager) :
    m.stop.err = m.services.reverse.findSome? (fun s => s.stopResult) := by
  rw [stop_spec]
  dsimp only
  rw [stopServicesRev_err]
  have h1 : (m.services.enum.reverse).map Prod.snd = m.services.reverse := by
    rw [List.map_reverse]
    exact congrArg List.reverse (List.enumFrom_map_snd 0 m.services)
  have h2 := List.findSome?_map Prod.snd m.services.enum.reverse
    (p := fun s => s.stopResult)
  rw [h1] at h2
  exact h2.symm

theorem start_events_order (m : Manager) (herr : m.start.err = none) :
    serviceStartEvents m.start.events =
      m.services.enum.map (fun p => Event.serviceStart p.1 p.2.name) := by
  cases hpre : (m.executeHooks .startup "before_start").2 with
  | some e =>
    rw [start_pre_err m e hpre] at herr
    simp at herr
  | none =>
    cases hsvc : (startServicesFrom 0 m.services).2 with
    | some fe =>
      rw [start_svc_err m fe.1 fe.2 hpre (by simpa using hsvc)] at herr
      simp at herr
    | none =>
      rw [start_ok m hpre hsvc]
      dsimp only
      have hall := startServicesFrom_none_ok m.services 0 hsvc
      have hev := startServicesFrom_all_ok m.services 0 hall
      rw [serviceStartEvents_append, serviceStartEvents_append,
        serviceStartEvents_hooks, serviceStartEvents_hooks, hev]
      dsimp only
      rw [serviceStartEvents_starts]
      simp [List.enum]

theorem beq_healthStatus_def (a b : HealthStatus) :
    (a == b) = decide (a = b) := rfl

theorem checkLoop_status :
    ∀ (l : List (String × HealthStatus))
      (comps : List (String × ComponentHealth)) (st : HealthStatus),
      (checkLoop l comps st).2 =
        if l.any (fun c => c.2 == HealthStatus.down) then HealthStatus.down
        else if l.any (fun c => c.2 == HealthStatus.degraded) then
          (if st = HealthStatus.up then HealthStatus.degraded else st)
        else st := by
  intro l
  induction l with
  | nil => intro comps st; simp [checkLoop]
  | cons c rest ih =>
    intro comps st
    obtain ⟨nm, s⟩ := c
    simp only [checkLoop, List.any_cons]
    rw [ih]
    cases s <;> cases st <;>
      (simp only [beq_healthStatus_def,
          show (decide (HealthStatus.up = HealthStatus.down)) = false from rfl,
          show (decide (HealthStatus.up = HealthStatus.degraded)) = false from
            rfl,
          show (decide (HealthStatus.down = HealthStatus.down)) = true from rfl,
          show (decide (HealthStatus.down = HealthStatus.degraded)) = false from
            rfl,
          show (decide (HealthStatus.degraded = HealthStatus.down)) = false from
            rfl,
          show (decide (HealthStatus.degraded = HealthStatus.degraded)) = true
            from rfl,
          Bool.false_or, Bool.true_or, eq_self_iff_true, if_true, ite_self];
        try simp)

theorem mapSet_not_mem {β : Type} (l : List (String × β)) (k : String) (v : β)
    (h : ∀ p ∈ l, p.1 ≠ k) : mapSet l k v = l ++ [(k, v)] := by
  have hneg : ¬(l.any (fun p => p.1 == k) = true) := by
    simp only [List.any_eq_true, beq_iff_eq]
    rintro ⟨p, hp, hpk⟩
    exact h p hp hpk
  unfold mapSet
  rw [if_neg hneg]

theorem checkLoop_comps :
    ∀ (l : List (String × HealthStatus))
      (comps : List (String × ComponentHealth)) (st : HealthStatus),
      (∀ k ∈ l.map Prod.fst, ∀ p ∈ comps, p.1 ≠ k) →
      (l.map Prod.fst).Nodup →
      (checkLoop l comps st).1 =
        comps ++ l.map (fun c => (c.1, ⟨c.2⟩)) := by
  intro l
  induction l with
  | nil => intro comps st _ _; simp [checkLoop]
  | cons c rest ih =>
    intro comps st hdisj hnodup
    obtain ⟨nm, s⟩ := c
    have hset : mapSet comps nm ⟨s⟩ = comps ++ [(nm, ⟨s⟩)] :=
      mapSet_not_mem comps nm ⟨s⟩ (fun p hp => hdisj nm (by simp) p hp)
    have hcons : (nm :: rest.map Prod.fst).Nodup := by simpa using hnodup
    have hnm_rest : nm ∉ rest.map Prod.fst := (List.nodup_cons.mp hcons).1
    have hnd2 : (rest.map Prod.fst).Nodup := (List.nodup_cons.mp hcons).2
    have hdisj2 : ∀ k ∈ rest.map Prod.fst, ∀ p ∈ comps ++ [(nm, ⟨s⟩)],
        p.1 ≠ k := by
      intro k hk p hp
      rcases List.mem_append.mp hp with hc | hone
      · exact hdisj k (by simp [hk]) p hc
      · have hpe : p = (nm, ⟨s⟩) := by simpa using hone
        rw [hpe]
        intro heq
        have heq2 : nm = k := heq
        rw [heq2] at hnm_rest
        exact hnm_rest hk
    simp only [checkLoop]
    rw [hset, ih _ _ hdisj2 hnd2, List.append_assoc]
    simp

/-!
## Claims
-/

/-- Claim C1: a successful Manager.Start invokes each registered service's
Start exactly once, sequentially, in exactly the registration order, and
Manager.Stop invokes each service's Stop exactly once in exactly the
reverse registration order. -/
theorem claim_C1_start_stop_order (m : Manager) :
    (m.start.err = none →
      serviceStartEvents m.start.events =
        m.services.enum.map (fun p => Event.serviceStart p.1 p.2.name)) ∧
    serviceStopEvents m.stop.events =
      (m.services.enum.map (fun p => Event.serviceStop p.1 p.2.name)).reverse :=
  ⟨start_events_order m, stop_events_reverse m⟩

/-- Claim C1 witness: on a manager with services A then B, Start calls
Start(A) then Start(B), Stop calls Stop(B) then Stop(A). -/
theorem claim_C1_witness :
    serviceStartEvents mC1.start.events =
      [Event.serviceStart 0 "A", Event.serviceStart 1 "B"] ∧
    serviceStopEvents mC1.stop.events =
      [Event.serviceStop 1 "B", Event.serviceStop 0 "A"] :=
  ⟨((claim_C1_start_stop_order mC1).1 (by decide)).trans (by decide),
    ((claim_C1_start_stop_order mC1).2).trans (by decide)⟩

/-- Claim C3: if the k-th registered service's Start fails (all earlier
ones succeeding, before_start hooks passing), Start invokes exactly the
Starts of services 0..k in order (none after k), returns the error wrapped
with the failing service's name, performs no Stop call (no rollback), and
leaves the state Error. -/
theorem claim_C3_start_failfast (m : Manager) (pre post : List Service)
    (f : Service) (e : GoError)
    (hsplit : m.services = pre ++ f :: post)
    (hpre_ok : ∀ s ∈ pre, s.startResult = none)
    (hf : f.startResult = some e)
    (hhooks : ∀ h ∈ m.startupHooks, h.name = "before_start" →
      h.fn.result = none) :
    serviceStartEvents m.start.events =
      (pre ++ [f]).enum.map (fun p => Event.serviceStart p.1 p.2.name) ∧
    m.start.err =
      some (.wrap ("service " ++ f.name ++ " failed to start") e) ∧
    serviceStopEvents m.start.events = [] ∧
    m.start.mgr.state = State.error := by
  have hpreE : (m.executeHooks .startup "before_start").2 = none :=
    executeHooks_ok m .startup "before_start" hhooks
  have hsvcE := startServicesFrom_fail pre 0 f post e hpre_ok hf
  have hsvc2 : (startServicesFrom 0 m.services).2 = some (f.name, e) := by
    rw [hsplit, hsvcE]
  rw [start_svc_err m f.name e hpreE hsvc2]
  dsimp only
  refine ⟨?_, rfl, ?_, rfl⟩
  · rw [serviceStartEvents_append, serviceStartEvents_hooks, hsplit, hsvcE]
    dsimp only
    rw [serviceStartEvents_starts]
    simp [List.enum]
  · rw [serviceStopEvents_append, serviceStopEvents_hooks, hsplit, hsvcE]
    dsimp only
    rw [serviceStopEvents_starts]
    simp

/-- Claim C3 witness: with services A (ok), F (fails), C, Start calls
Start(A) and Start(F) only, errors with F's name, stops nothing, state
Error. -/
theorem claim_C3_witness :
    serviceStartEvents mC3.start.events =
      [Event.serviceStart 0 "A", Event.serviceStart 1 "F"] ∧
    mC3.start.err =
      some (.wrap "service F failed to start" (.msg "boom")) ∧
    serviceStopEvents mC3.start.events = [] ∧
    mC3.start.mgr.state = State.error := by
  have h := claim_C3_start_failfast mC3
    [{ name := "A", startResult := none, stopResult := none }]
    [{ name := "C", startResult := none, stopResult := none }]
    { name := "F", startResult := some (.msg "boom"), stopResult := none }
    (.msg "boom") (by decide) (by decide) (by decide) (by decide)
  exact ⟨h.1.trans (by decide), h.2.1.trans (by decide), h.2.2.1, h.2.2.2⟩

/-- Claim C4: even when some Stop calls fail, Manager.Stop still stops
every registered service exactly once (reverse order, no early exit), and
returns the first error encountered in the reverse-order traversal. -/
theorem claim_C4_stop_first_error (m : Manager)
    (hex : ∃ s ∈ m.services, s.stopResult.isSome) :
    serviceStopEvents m.stop.events =
      (m.services.enum.map (fun p => Event.serviceStop p.1 p.2.name)).reverse ∧
    m.stop.err = m.services.reverse.findSome? (fun s => s.stopResult) :=
  ⟨stop_events_reverse m, stop_err_eq m⟩

/-- Claim C4 witness: services A, B (both with failing Stop) and C; Stop
calls Stop(C), Stop(B), Stop(A) and returns B's error (the first failure
encountered in reverse order), not A's (the last). -/
theorem claim_C4_witness :
    serviceStopEvents mC4.stop.events =
      [Event.serviceStop 2 "C", Event.serviceStop 1 "B",
        Event.serviceStop 0 "A"] ∧
    mC4.stop.err = some (.msg "stopB") := by
  have h := claim_C4_stop_first_error mC4 (by decide)
  exact ⟨h.1.trans (by decide), h.2.trans (by decide)⟩

/-- Claim C9: calling Stop while the state is Idle (before any Start) is a
total, panic-free operation that still attempts Stop on every registered
service in reverse order, and returns nil when no Stop fails — in
particular with zero services. -/
theorem claim_C9_stop_before_start (m : Manager)
    (hidle : m.state = State.idle) :
    serviceStopEvents m.stop.events =
      (m.services.enum.map (fun p => Event.serviceStop p.1 p.2.name)).reverse ∧
    ((∀ s ∈ m.services, s.stopResult = none) → m.stop.err = none) := by
  refine ⟨stop_events_reverse m, ?_⟩
  intro hall
  rw [stop_err_eq]
  rw [List.findSome?_eq_none_iff]
  intro s hs
  exact hall s (List.mem_reverse.mp hs)

/-- Claim C9 witness: a fresh manager (state Idle, no services) stops
without events and without error. -/
theorem claim_C9_witness :
    serviceStopEvents mC9.stop.events = [] ∧ mC9.stop.err = none := by
  have h := claim_C9_stop_before_start mC9 (by decide)
  exact ⟨h.1.trans (by decide), h.2 (by decide)⟩

/-- Claim C7 as stated is false: NewManager defaults only *zero* durations,
so a negative ShutdownTimeout (legal for Go time.Duration) survives and the
resulting config is not positive. -/
theorem claim_C7_counterexample :
    ¬(0 < (newManager
          { shutdownTimeout := -1, gracePeriod := 0 }).config.shutdownTimeout ∧
      0 < (newManager
          { shutdownTimeout := -1, gracePeriod := 0 }).config.gracePeriod) := by
  decide

/-- Claim C7 amended: for every LifecycleConfig whose durations are
nonnegative, after NewManager defaulting (zero shutdown timeout becomes
30s, zero grace period becomes 5s) both durations are strictly positive. -/
theorem claim_C7_amended (cfg : LifecycleConfig)
    (h1 : 0 ≤ cfg.shutdownTimeout) (h2 : 0 ≤ cfg.gracePeriod) :
    0 < (newManager cfg).config.shutdownTimeout ∧
    0 < (newManager cfg).config.gracePeriod := by
  unfold newManager
  dsimp only
  constructor
  · split
    · norm_num [durationSecond]
    · next h => exact lt_of_le_of_ne h1 (Ne.symm h)
  · split
    · norm_num [durationSecond]
    · next h => exact lt_of_le_of_ne h2 (Ne.symm h)

/-- Claim C7 witness: the all-zero config defaults to positive durations. -/
theorem claim_C7_witness :
    0 < (newManager
        { shutdownTimeout := 0, gracePeriod := 0 }).config.shutdownTimeout ∧
    0 < (newManager
        { shutdownTimeout := 0, gracePeriod := 0 }).config.gracePeriod :=
  claim_C7_amended { shutdownTimeout := 0, gracePeriod := 0 }
    (by decide) (by decide)

/-- Claim C10: Check on a manager with no registered checks reports overall
status up with an empty but allocated (non-nil) components map. -/
theorem claim_C10_empty_check :
    newHealthManager.check =
      { status := HealthStatus.up, components := GoMap.alloc [] } ∧
    GoMap.alloc ([] : List (String × ComponentHealth)) ≠ GoMap.nilMap := by
  exact ⟨rfl, by intro h; cases h⟩

/-- Claim C5: a failing before_start hook aborts Start with a wrapped error
carrying the hook's name, no service is started, and the state becomes
Error; a failing after_start hook, by contrast, does not stop Start from
returning success with state Running. -/
theorem claim_C5_hook_asymmetry :
    (∀ (m : Manager) (h : Hook) (e : GoError),
      h ∈ m.startupHooks → h.name = "before_start" → h.fn.result = some e →
      (∃ e', m.start.err =
          some (GoError.wrap "pre-start hooks failed"
            (GoError.wrap "hook before_start failed" e')) ∧
        ∃ h' ∈ m.startupHooks, h'.name = "before_start" ∧
          h'.fn.result = some e') ∧
      serviceStartEvents m.start.events = [] ∧
      m.start.mgr.state = State.error) ∧
    (∀ (m : Manager) (h : Hook) (e : GoError),
      h ∈ m.startupHooks → h.name = "after_start" → h.fn.result = some e →
      (∀ h' ∈ m.startupHooks, h'.name = "before_start" →
        h'.fn.result = none) →
      (∀ s ∈ m.services, s.startResult = none) →
      m.start.err = none ∧ m.start.mgr.state = State.running) := by
  constructor
  · intro m h e hmem hname hres
    have hstr : ("hook " ++ "before_start" ++ " failed" : String) =
        "hook before_start failed" := rfl
    rcases executeHooks_err m .startup "before_start"
        ⟨h, hmem, hname, by simp [hres]⟩ with ⟨e', he', h', hm', hn', hr'⟩
    rw [hstr] at he'
    rw [start_pre_err m _ he']
    dsimp only
    exact ⟨⟨e', rfl, h', hm', hn', hr'⟩, serviceStartEvents_hooks _, rfl⟩
  · intro m h e hmem hname hres hbefore hsvcok
    have hpreE : (m.executeHooks .startup "before_start").2 = none :=
      executeHooks_ok m .startup "before_start" hbefore
    have hsvcE := startServicesFrom_all_ok m.services 0 hsvcok
    have hsvc2 : (startServicesFrom 0 m.services).2 = none := by rw [hsvcE]
    rw [start_ok m hpreE hsvc2]
    exact ⟨rfl, rfl⟩

/-- Claim C5 witness: with one failing before_start hook, Start fails with
the wrapped hook error, starts no service and ends in Error; with one
failing after_start hook (and healthy services), Start succeeds and ends
Running. -/
theorem claim_C5_witness :
    ((∃ e', mC5a.start.err =
        some (GoError.wrap "pre-start hooks failed"
          (GoError.wrap "hook before_start failed" e')) ∧
      ∃ h' ∈ mC5a.startupHooks, h'.name = "before_start" ∧
        h'.fn.result = some e') ∧
      serviceStartEvents mC5a.start.events = [] ∧
      mC5a.start.mgr.state = State.error) ∧
    (mC5b.start.err = none ∧ mC5b.start.mgr.state = State.running) := by
  constructor
  · exact claim_C5_hook_asymmetry.1 mC5a
      { name := "before_start", phase := .startup, priority := 1,
        fn := { label := "bad", result := some (.msg "hookfail") } }
      (.msg "hookfail") (by decide) rfl rfl
  · exact claim_C5_hook_asymmetry.2 mC5b
      { name := "after_start", phase := .startup, priority := 1,
        fn := { label := "abad", result := some (.msg "afterfail") } }
      (.msg "afterfail") (by decide) rfl rfl (by decide) (by decide)

/-- Claim C6 as stated is false: "once the state is Stopped no further
state transition occurs" is contradicted by a second Stop call, which
transitions a Stopped manager back through Stopping. -/
theorem claim_C6_counterexample :
    (newManager
      { shutdownTimeout := 0, gracePeriod := 0 }).stop.mgr.state =
      State.stopped ∧
    (newManager
      { shutdownTimeout := 0, gracePeriod := 0 }).stop.mgr.stop.states =
      [State.stopping, State.stopped] ∧
    State.stopping ≠ State.stopped := by
  decide

/-- Claim C6 amended: Error is entered only from Starting (every Start
assigns Starting and then either Error or Running; Stop assigns Stopping
then Stopped and never Error); a canonical run — one Start from Idle with
succeeding before-hooks and services, then one Stop — traverses exactly
Idle, Starting, Running, Stopping, Stopped; and repeated Stop calls are
safe: every further Stop passes through Stopping back to Stopped and
returns nil when no service Stop fails. -/
theorem claim_C6_state_machine :
    (∀ m : Manager,
      (m.start.states = [State.starting, State.error] ∨
        m.start.states = [State.starting, State.running]) ∧
      m.stop.states = [State.stopping, State.stopped]) ∧
    (∀ m : Manager, m.state = State.idle →
      (∀ h ∈ m.startupHooks, h.name = "before_start" →
        h.fn.result = none) →
      (∀ s ∈ m.services, s.startResult = none) →
      m.state :: (m.start.states ++ m.start.mgr.stop.states) =
        [State.idle, State.starting, State.running, State.stopping,
          State.stopped]) ∧
    (∀ m : Manager,
      m.stop.mgr.state = State.stopped ∧
      m.stop.mgr.stop.states = [State.stopping, State.stopped] ∧
      m.stop.mgr.stop.mgr.state = State.stopped ∧
      ((∀ s ∈ m.services, s.stopResult = none) →
        m.stop.mgr.stop.err = none)) := by
  refine ⟨?_, ?_, ?_⟩
  · intro m
    constructor
    · cases hpre : (m.executeHooks .startup "before_start").2 with
      | some e => rw [start_pre_err m e hpre]; exact Or.inl rfl
      | none =>
        cases hsvc : (startServicesFrom 0 m.services).2 with
        | some fe =>
          rw [start_svc_err m fe.1 fe.2 hpre (by simpa using hsvc)]
          exact Or.inl rfl
        | none => rw [start_ok m hpre hsvc]; exact Or.inr rfl
    · rw [stop_spec]
  · intro m hidle hhooks hsvcok
    have hpreE : (m.executeHooks .startup "before_start").2 = none :=
      executeHooks_ok m .startup "before_start" hhooks
    have hsvcE := startServicesFrom_all_ok m.services 0 hsvcok
    rw [start_ok m hpreE (by rw [hsvcE]), hidle]
    dsimp only
    rw [stop_spec]
    rfl
  · intro m
    have hsvcs : m.stop.mgr.services = m.services := by rw [stop_spec]
    refine ⟨by rw [stop_spec], by rw [stop_spec], by rw [stop_spec], ?_⟩
    intro hall
    rw [stop_err_eq, hsvcs, List.findSome?_eq_none_iff]
    intro s hs
    exact hall s (List.mem_reverse.mp hs)

/-- Claim C6 witness: on a fresh manager with one healthy service, Start
then Stop traverses Idle, Starting, Running, Stopping, Stopped, and a
repeated Stop returns nil ending in Stopped. -/
theorem claim_C6_witness :
    (mC6.start.states = [State.starting, State.error] ∨
      mC6.start.states = [State.starting, State.running]) ∧
    mC6.state :: (mC6.start.states ++ mC6.start.mgr.stop.states) =
      [State.idle, State.starting, State.running, State.stopping,
        State.stopped] ∧
    mC6.stop.mgr.stop.err = none :=
  ⟨(claim_C6_state_machine.1 mC6).1,
    claim_C6_state_machine.2.1 mC6 rfl (by decide) (by decide),
    (claim_C6_state_machine.2.2 mC6).2.2.2 (by decide)⟩

/-- Claim C8: HealthManager.Check reduces the registered check results to
down if any check reports down, else degraded if any reports degraded,
else up; and its components map records exactly each registered check's
status under the check's name. -/
theorem claim_C8_health_reduction (hm : HealthManager)
    (hnodup : (hm.checks.map Prod.fst).Nodup) :
    hm.check.status =
      (if hm.checks.any (fun c => c.2 == HealthStatus.down) then
        HealthStatus.down
      else if hm.checks.any (fun c => c.2 == HealthStatus.degraded) then
        HealthStatus.degraded
      else HealthStatus.up) ∧
    hm.check.components =
      GoMap.alloc (hm.checks.map (fun c => (c.1, ⟨c.2⟩))) := by
  constructor
  · unfold HealthManager.check
    dsimp only
    rw [checkLoop_status]
    simp
  · unfold HealthManager.check
    dsimp only
    rw [checkLoop_comps hm.checks [] HealthStatus.up
      (by intro k _ p hp; cases hp) hnodup]
    simp

/-- Claim C8 witness: the spec scenario db up plus cache degraded yields
overall degraded with both components recorded. -/
theorem claim_C8_witness :
    hmC8.check.status = HealthStatus.degraded ∧
    hmC8.check.components =
      GoMap.alloc [("db", ⟨HealthStatus.up⟩),
        ("cache", ⟨HealthStatus.degraded⟩)] := by
  have h := claim_C8_health_reduction hmC8 (by decide)
  exact ⟨h.1.trans (by decide), h.2.trans (by decide)⟩

set_option maxRecDepth 100000 in
set_option maxHeartbeats 2000000 in
/-- Claim C2 fails on the code: executeHooks sorts with sort.Slice, and
Go's sort.Slice is an unstable pdqsort (stable insertion sort is used only
for 12 or fewer elements).  With the thirteen before_start hooks of `m13`,
registered h0..h12 with priorities [0,2,4,1,3,0,2,4,1,3,0,2,4], the
equal-priority hooks h0, h5, h10 (priority 0, registered in that order)
execute in the order h5, h10, h0 — violating the stable-sort requirement
that equal-priority hooks run in registration order. -/
theorem claim_C2_unstable_order :
    m13.startupHooks.map (fun h => h.fn.label) =
      ["h0", "h1", "h2", "h3", "h4", "h5", "h6", "h7", "h8", "h9", "h10",
        "h11", "h12"] ∧
    m13.startupHooks.map Hook.priority =
      [0, 2, 4, 1, 3, 0, 2, 4, 1, 3, 0, 2, 4] ∧
    (m13.executeHooks .startup "before_start").1.map (fun h => h.fn.label) =
      ["h5", "h10", "h0", "h8", "h3", "h6", "h1", "h11", "h4", "h9", "h7",
        "h2", "h12"] := by
  refine ⟨by decide, by decide, ?_⟩
  simp +decide [m13, hooks13, Manager.executeHooks, Manager.hooksOf,
    Manager.addHook, newManager, runHooks, goSortSlice, pdqsortGo,
    pdqBreakStage, pdqPivotStage, pdqPisStage, insertionSortGo,
    insertionOuter, insertionInner, heapSortGo, heapBuild, heapExtract,
    siftDownGo, reverseRangeGo, order2Go, medianGo, medianAdjacentGo,
    choosePivotGo, hintOfSwaps, pisScan, shiftLeftGo, shiftRightGo,
    pisSteps, pInsSortGo, partScanI, partScanJ, partLoop, partitionGo,
    peScanI, peScanJ, peLoop, partitionEqualGo, xorshiftNext, goBitsLen,
    breakPatternsGo, aless, aget, aset, swapIdx, hookLess, List.range,
    List.range.loop, List.foldl]

end Goten
